import Mathlib

/-!
Shallow embedding of the `slash_util` library (command registration and
argument-resolution pipeline) and proofs about it.

Conventions of the embedding:
* Python dicts whose keys are strings are modelled as association lists
  `List (String × JVal)` in insertion order; `dict.get` is `List.lookup`.
* Snowflake IDs are transmitted on the wire as decimal strings and converted
  with `int(...)`; they are modelled directly as `Int`.
* Numeric values are modelled as `Int` (the claims under study only involve
  integer-valued numerics; Python floats are not modelled).
* Fallible Python code (statements that can raise) is modelled with `Except`.
-/

namespace SlashUtil

/-- JSON-like values appearing in wire payloads and built command payloads. -/
inductive JVal where
  | null
  | jInt (n : Int)
  | jStr (s : String)
  | jBool (b : Bool)
  | jArr (xs : List JVal)
  | jObj (fields : List (String × JVal))

/-- Python truthiness of a JSON value (`bool(v)`). -/
def JVal.truthy : JVal → Bool
  | .null => false
  | .jInt n => n != 0
  | .jStr s => s != ""
  | .jBool b => b
  | .jArr xs => !xs.isEmpty
  | .jObj fs => !fs.isEmpty

/-- Python truthiness of `dict.get(k)` (absent key gives `None`, which is falsy). -/
def pyTruthy : Option JVal → Bool
  | none => false
  | some v => v.truthy

/-- A built option entry: a Python dict in insertion order. -/
abbrev OptionDict := List (String × JVal)

/-- The universe of Python types that appear as (resolved) parameter
annotations in `core.py`: the keys of `command_type_map`, plus `NoneType`
(which arises from `Optional[...]` unions and is unsupported). -/
inductive PyType where
  | pyStr | pyInt | pyBool | pyFloat
  | user | member
  | textChannel | voiceChannel | categoryChannel
  | role | attachment
  | noneType
deriving DecidableEq, Repr

/-- `command_type_map` from `core.py`: declared parameter type to platform
option-type code. `none` models a `KeyError` on lookup of an unsupported type. -/
def command_type_map : PyType → Option Int
  | .pyStr => some 3
  | .pyInt => some 4
  | .pyBool => some 5
  | .user => some 6
  | .member => some 6
  | .textChannel => some 7
  | .voiceChannel => some 7
  | .categoryChannel => some 7
  | .role => some 8
  | .pyFloat => some 10
  | .attachment => some 11
  | .noneType => none

/-- `channel_filter` from `core.py`: guild-channel type to channel-type code. -/
def channel_filter : PyType → Option Int
  | .textChannel => some 0
  | .voiceChannel => some 2
  | .categoryChannel => some 4
  | _ => none

/-- `issubclass(t, discord.abc.GuildChannel)` restricted to the model universe:
the guild-channel classes referenced by `core.py`. -/
def isGuildChannel : PyType → Bool
  | .textChannel => true
  | .voiceChannel => true
  | .categoryChannel => true
  | _ => false

/-- A value admissible inside a `Literal[...]` annotation. -/
inductive LitVal where
  | i (n : Int)
  | s (v : String)
  | b (v : Bool)
deriving DecidableEq, Repr

/-- `type(a)` for a literal value. -/
def LitVal.pyType : LitVal → PyType
  | .i _ => .pyInt
  | .s _ => .pyStr
  | .b _ => .pyBool

/-- `str(a)` for a literal value, following Python string conversion. -/
def LitVal.pyStr : LitVal → String
  | .i n => toString n
  | .s v => v
  | .b v => if v then "True" else "False"

/-- The literal value as a JSON value. -/
def LitVal.toJVal : LitVal → JVal
  | .i n => .jInt n
  | .s v => .jStr v
  | .b v => .jBool v

/-- A (resolved) parameter annotation, after `eval` of string annotations:
a bare type, a `Range` instance, a `Union[...]`, or a `Literal[...]`.
`Union` and `Literal` always carry at least one argument (Python collapses
single-member unions and rejects empty ones, so `get_args` is nonempty). -/
inductive Ann where
  | ty (t : PyType)
  | range (min : Option Int) (max : Int)
  | union (first : PyType) (rest : List PyType)
  | lit (first : LitVal) (rest : List LitVal)
deriving DecidableEq, Repr

/-- The `real_t` computation of `_build_command_payload`: for a `Range` the
type of its `max` (`Int` in this model), for a `Union` its first argument,
for a `Literal` the type of its first value, otherwise the annotation itself. -/
def Ann.realType : Ann → PyType
  | .range _ _ => .pyInt
  | .union first _ => first
  | .lit first _ => first.pyType
  | .ty t => t

/-- One declared handler parameter (after dropping `self` and `context`):
its name, its annotation (`none` models `inspect.Parameter.empty`), and
whether it carries a default value. -/
structure Param where
  name : String
  annot : Option Ann
  hasDefault : Bool
deriving DecidableEq, Repr

/-- Errors that `_build_command_payload` can raise. `channelFilterKeyError`
models the `KeyError` a `channel_filter[...]` lookup would raise; it is
unreachable for the guild-channel types of the model universe. -/
inductive BuildError where
  | missingAnnot (param : String) (cmd : String)
  | unsupportedType
  | unionNonChannel
  | channelFilterKeyError
  | describeUnknownParam (param : String)
deriving DecidableEq, Repr

/-- `Range(None, 10).min` rendered into the option dict: `None` becomes JSON null. -/
def jValOfOptInt : Option Int → JVal
  | none => .null
  | some n => .jInt n

/-- `channel_filter[i] for i in args`: the codes for a list of channel types,
`none` if any lookup raises `KeyError`. -/
def channelCodes : List PyType → Option (List Int)
  | [] => some []
  | t :: ts =>
    match channel_filter t, channelCodes ts with
    | some c, some cs => some (c :: cs)
    | _, _ => none

/-- The leading fields of a built option, in the insertion order of
`_build_command_payload`: `type`, `name`, `description`, then `required`
(set to `True` exactly when the parameter has no default). -/
def optionBase (typ : Int) (name desc : String) (hasDefault : Bool) : OptionDict :=
  [("type", .jInt typ), ("name", .jStr name), ("description", .jStr desc)] ++
    (if hasDefault then [] else [("required", .jBool true)])

/-- The annotation-specific trailing fields of a built option
(`Range` bounds, channel-union filter, `Literal` choices, bare-channel filter),
or the error the corresponding branch raises. -/
def optionExtra : Ann → Except BuildError OptionDict
  | .range mn mx => .ok [("max_value", .jInt mx), ("min_value", jValOfOptInt mn)]
  | .union c cs =>
    if (c :: cs).all isGuildChannel then
      if (c :: cs).length ≠ 3 then
        match channelCodes (c :: cs) with
        | none => .error .channelFilterKeyError
        | some codes => .ok [("channel_types", .jArr (codes.map JVal.jInt))]
      else .ok []
    else .error .unionNonChannel
  | .lit c cs =>
    .ok [("choices", .jArr ((c :: cs).map fun a =>
      JVal.jObj [("name", .jStr a.pyStr), ("value", a.toJVal)]))]
  | .ty t =>
    if isGuildChannel t then
      match channel_filter t with
      | none => .error .channelFilterKeyError
      | some code => .ok [("channel_types", .jArr [JVal.jInt code])]
    else .ok []

/-- Building the option dict for one parameter, following the body of the
`for name, param in params.items()` loop of `_build_command_payload`:
missing annotation raises, then `command_type_map[real_t]` raises on an
unsupported type, then the base fields are laid down and the
annotation-specific branch runs. -/
def buildOption (cmdName : String) (descFor : String → String) (p : Param) :
    Except BuildError OptionDict :=
  match p.annot with
  | none => .error (.missingAnnot p.name cmdName)
  | some ann =>
    match command_type_map ann.realType with
    | none => .error .unsupportedType
    | some typ =>
      (optionExtra ann).map fun extra =>
        optionBase typ p.name (descFor p.name) p.hasDefault ++ extra

/-- The option dicts for all parameters, in declaration order; the first
raising parameter aborts the build, as in the Python loop. -/
def buildOptionsList (cmdName : String) (descFor : String → String) :
    List Param → Except BuildError (List OptionDict)
  | [] => .ok []
  | p :: ps =>
    match buildOption cmdName descFor p with
    | .error e => .error e
    | .ok o =>
      match buildOptionsList cmdName descFor ps with
      | .error e => .error e
      | .ok os => .ok (o :: os)

/-- `f.get('required')` truthiness for a built option. -/
def optRequired (o : OptionDict) : Bool := pyTruthy (o.lookup "required")

/-- The key `options.sort` uses: `not f.get('required')`. -/
def sortKey (o : OptionDict) : Bool := !optRequired o

/-- Stable insertion of an option into an already-sorted list: the option is
placed after every entry whose key is strictly smaller (`False < True` on
Bool keys) and before the first entry with an equal or larger key, which is
exactly where Python's stable `list.sort` leaves it. -/
def insertByKey (x : OptionDict) : List OptionDict → List OptionDict
  | [] => [x]
  | y :: ys => if !sortKey y && sortKey x then y :: insertByKey x ys else x :: y :: ys

/-- `options.sort(key=lambda f: not f.get('required'))`: Python `list.sort`
is a stable sort; it is modelled as stable insertion sort over the Bool key. -/
def sortOptions : List OptionDict → List OptionDict
  | [] => []
  | x :: xs => insertByKey x (sortOptions xs)

/-- `self._parameter_descriptions[name]`: a `defaultdict` yielding
"No description provided" for undescribed parameters, with the entries of
`func._param_desc_` installed by `_build_descriptions`. -/
def descFor (paramDesc : List (String × String)) (n : String) : String :=
  (paramDesc.lookup n).getD "No description provided"

/-- `_build_descriptions`: raises when `@describe` names a parameter that is
not declared by the handler. -/
def checkDescriptions (paramDesc : List (String × String)) (params : List Param) :
    Except BuildError Unit :=
  match paramDesc.find? (fun kv => !params.any (fun p => p.name == kv.1)) with
  | some kv => .error (.describeUnknownParam kv.1)
  | none => .ok ()

/-- The registration-time data of a `SlashCommand`: display name, description,
target guild, the `@describe` table attached to the handler function, and the
declared parameters (after dropping `self` and `context`). -/
structure SlashCommand where
  name : String
  description : String
  guildId : Option Int
  paramDesc : List (String × String)
  params : List Param

/-- `SlashCommand._build_command_payload`: the upload payload as a dict in
insertion order; the `options` key is present exactly when the command has
parameters, holding the per-parameter option dicts sorted required-first. -/
def buildCommandPayload (c : SlashCommand) : Except BuildError (List (String × JVal)) :=
  match checkDescriptions c.paramDesc c.params with
  | .error e => .error e
  | .ok _ =>
    let payload : List (String × JVal) :=
      [("name", .jStr c.name), ("description", .jStr c.description), ("type", .jInt 1)]
    if c.params.isEmpty then .ok payload
    else
      match buildOptionsList c.name (descFor c.paramDesc) c.params with
      | .error e => .error e
      | .ok options =>
        .ok (payload ++ [("options", .jArr ((sortOptions options).map JVal.jObj))])

/-! ### Argument resolution (`_parse_resolved_data`, `SlashCommand._build_arguments`) -/

/-- A resolved platform entity, wrapping the raw wire data it was built from
(constructing the actual `discord.*` object is the wrapped library's concern).
A member is built from the user entry merged into the member entry. -/
inductive Entity where
  | member (userData memberData : JVal)
  | channel (data : JVal)
  | message (data : JVal)
  | role (data : JVal)
  | attachment (data : JVal)

/-- The `data.resolved` side-table of an inbound interaction: each section is
an ID-keyed table of raw entity data (`none` models an absent key). -/
structure ResolvedPayload where
  users : Option (List (Int × JVal))
  members : Option (List (Int × JVal))
  channels : Option (List (Int × JVal))
  messages : Option (List (Int × JVal))
  roles : Option (List (Int × JVal))
  attachments : Option (List (Int × JVal))

/-- Errors `_build_arguments` can raise: the `KeyError` of
`data['members']`, of `resolved_members[id]`, the `ValueError` of
`int(value)` on a non-numeric value, and the `KeyError` of
`resolved[int(value)]` on an ID missing from the side-table. -/
inductive ResolveError where
  | membersKeyMissing
  | memberDataMissing (id : Int)
  | intConversionError
  | resolvedKeyError (id : Int)
deriving DecidableEq, Repr

/-- The users section of `_parse_resolved_data`: skipped when `users` is
absent or empty (Python falsiness), otherwise each user entry is merged with
its member entry, raising `KeyError` when `members` is absent or lacks an ID. -/
def parseUsers (users members : Option (List (Int × JVal))) :
    Except ResolveError (List (Int × Entity)) :=
  match users with
  | none => .ok []
  | some us =>
    if us.isEmpty then .ok []
    else
      match members with
      | none => .error .membersKeyMissing
      | some ms => go ms us
where
  go (ms : List (Int × JVal)) : List (Int × JVal) → Except ResolveError (List (Int × Entity))
    | [] => .ok []
    | u :: us =>
      match ms.lookup u.1 with
      | none => .error (.memberDataMissing u.1)
      | some md =>
        match go ms us with
        | .error e => .error e
        | .ok rest => .ok ((u.1, Entity.member u.2 md) :: rest)

/-- One entity-kind section of `_parse_resolved_data` with no failure mode:
each raw entry becomes one resolved entity. -/
def parseSection (ctor : JVal → Entity) : Option (List (Int × JVal)) → List (Int × Entity)
  | none => []
  | some l => l.map fun p => (p.1, ctor p.2)

/-- `_parse_resolved_data`: an absent (or empty, both falsy) `resolved` dict
yields the empty table; otherwise the five sections are folded into one
ID-keyed table. Snowflake IDs are globally unique across entity kinds, so the
successive dict insertions are modelled as concatenation of the sections. -/
def parseResolvedData (data : Option ResolvedPayload) :
    Except ResolveError (List (Int × Entity)) :=
  match data with
  | none => .ok []
  | some d =>
    match parseUsers d.users d.members with
    | .error e => .error e
    | .ok users =>
      .ok (users ++ parseSection Entity.channel d.channels ++
        parseSection Entity.message d.messages ++
        parseSection Entity.role d.roles ++
        parseSection Entity.attachment d.attachments)

/-- Python `int(value)` on an option value: parses numeric strings, passes
integers through, converts booleans, and raises on anything else. -/
def pyInt : JVal → Option Int
  | .jStr s => s.toInt?
  | .jInt n => some n
  | .jBool b => some (if b then 1 else 0)
  | _ => none

/-- One raw entry of the inbound `data.options` array. -/
structure WireOption where
  name : String
  type : Int
  value : JVal

/-- The slice of inbound `interaction.data` that `_build_arguments` reads:
`options := none` models a payload with no `options` key, and `resolved`
is the optional side-table. -/
structure InteractionData where
  options : Option (List WireOption)
  resolved : Option ResolvedPayload

/-- The value bound to a parameter name: a primitive passed through, or a
resolved entity substituted for an ID of wire type 6, 7 or 8. -/
inductive ResolvedValue where
  | raw (v : JVal)
  | entity (e : Entity)

/-- The body of the option loop of `_build_arguments`: entity-reference wire
types (6, 7, 8) are looked up in the resolved table (`resolved[int(value)]`,
raising on a miss); every other type passes its value through. -/
def resolveOne (resolved : List (Int × Entity)) (o : WireOption) :
    Except ResolveError ResolvedValue :=
  if o.type = 6 ∨ o.type = 7 ∨ o.type = 8 then
    match pyInt o.value with
    | none => .error .intConversionError
    | some id =>
      match resolved.lookup id with
      | none => .error (.resolvedKeyError id)
      | some e => .ok (.entity e)
  else .ok (.raw o.value)

/-- The option loop of `_build_arguments`, building the name-to-value result
in order; the first lookup miss aborts the whole resolution. -/
def resolveOptions (resolved : List (Int × Entity)) :
    List WireOption → Except ResolveError (List (String × ResolvedValue))
  | [] => .ok []
  | o :: os =>
    match resolveOne resolved o with
    | .error e => .error e
    | .ok v =>
      match resolveOptions resolved os with
      | .error e => .error e
      | .ok rest => .ok ((o.name, v) :: rest)

/-- `SlashCommand._build_arguments`: a payload with no `options` key yields
the empty mapping immediately; otherwise the side-table is parsed and each
option resolved in order. -/
def buildArguments (data : InteractionData) :
    Except ResolveError (List (String × ResolvedValue)) :=
  match data.options with
  | none => .ok []
  | some opts =>
    match parseResolvedData data.resolved with
    | .error e => .error e
    | .ok resolved => resolveOptions resolved opts

/-! ### Invocation error routing (`bot.py`) -/

/-- Python exceptions relevant to invocation: `commands.CommandError` (the
domain-level error), its subclass `commands.CommandInvokeError` carrying the
wrapped cause, and any other `Exception`. -/
inductive PyExc where
  | commandError (msg : String)
  | commandInvokeError (cause : PyExc)
  | otherExc (msg : String)

/-- `isinstance(e, commands.CommandError)`: `CommandInvokeError` is a
subclass of `CommandError`. -/
def PyExc.isCommandError : PyExc → Bool
  | .commandError _ => true
  | .commandInvokeError _ => true
  | .otherExc _ => false

/-- `command_error_wrapper`: a `CommandError` re-raises unchanged; any other
exception is wrapped as `CommandInvokeError(e)` with the original as cause. -/
def commandErrorWrapper {α : Type} (run : Except PyExc α) : Except PyExc α :=
  match run with
  | .ok a => .ok a
  | .error e => if e.isCommandError then .error e else .error (.commandInvokeError e)

/-- The `try/except commands.CommandError` around
`command_error_wrapper(command.invoke, ...)` in
`Bot._internal_interaction_handler`: the error delivered to the per-cog hook
`cog.slash_command_error`, or `none` when the invocation succeeded or the
escaping exception is not a `CommandError` (and so is not caught). -/
def hookError {α : Type} (run : Except PyExc α) : Option PyExc :=
  match commandErrorWrapper run with
  | .ok _ => none
  | .error e => if e.isCommandError then some e else none

/-! ### Modal correlation (`bot.py` modal branch, `modal.py`, `_patch.py`) -/

/-- The modal-correlation state: the `_modals` pending table installed on the
connection state (custom ID to modal, one entry per ID since it is a dict),
and the modals whose `_response` future has been fulfilled by `set_result`,
most recent first. Modals are identified by an index. -/
structure ModalState where
  pending : List (String × Nat)
  fulfilled : List Nat

/-- The `MODAL_SUBMIT` branch of `Bot._internal_interaction_handler`:
`_modals.pop(custom_id, None)` removes the pending entry if present, and
`modal._response.set_result(interaction)` fulfills that modal; an absent
entry makes the event a no-op. Removing a key from a dict is modelled by
filtering the association list on that key. -/
def handleModalSubmit (s : ModalState) (customId : String) : ModalState :=
  match s.pending.lookup customId with
  | none => s
  | some m =>
    { pending := s.pending.filter fun p => p.1 != customId
      fulfilled := m :: s.fulfilled }

/-- A sequence of inbound modal-submission dispatch steps. -/
def runSubmissions (s : ModalState) (events : List String) : ModalState :=
  events.foldl handleModalSubmit s

/-! ### Command sync (`Bot.sync_commands`) -/

/-- A loaded cog as the sync loop sees it: the `Command`-valued members found
by `inspect.getmembers` (in its enumeration order) and the `_commands`
registry table the loop fills in. -/
structure Cog where
  commands : List SlashCommand
  table : List (String × SlashCommand)

/-- The state `sync_commands` reads and writes: the application ID (0 models
a falsy, not yet established identity) and the loaded cogs. -/
structure BotState where
  applicationId : Int
  cogs : List Cog

/-- Errors of `sync_commands`: called before the application identity is
known, or a payload build failure. -/
inductive SyncError where
  | noApplicationId
  | build (e : BuildError)

/-- The two bulk uploads produced by one sync: the global-scope payload list
and one payload list per guild scope, in first-appearance order. -/
structure SyncPayloads where
  globals : List (List (String × JVal))
  guilds : List (Int × List (List (String × JVal)))

/-- `cog._commands[cmd.name] = cmd`: dict insertion into the registry table
(an existing key is overwritten; lookup order is irrelevant, so the updated
entry is appended after filtering out the old one). -/
def tableInsert (t : List (String × SlashCommand)) (c : SlashCommand) :
    List (String × SlashCommand) :=
  (t.filter fun p => p.1 != c.name) ++ [(c.name, c)]

/-- The per-cog body of the sync loop: build every member command's payload
(tagged with its guild scope) and record each command in the cog's
`_commands` table. Setting `cmd.cog = cog` has no effect on payloads and is
not modelled. -/
def syncCog (cog : Cog) :
    Except BuildError (List (Option Int × List (String × JVal)) × Cog) :=
  match collect cog.commands with
  | .error e => .error e
  | .ok ps => .ok (ps, { cog with table := cog.commands.foldl tableInsert cog.table })
where
  collect : List SlashCommand →
      Except BuildError (List (Option Int × List (String × JVal)))
    | [] => .ok []
    | c :: cs =>
      match buildCommandPayload c with
      | .error e => .error e
      | .ok pl =>
        match collect cs with
        | .error e => .error e
        | .ok rest => .ok ((c.guildId, pl) :: rest)

/-- `defaultdict(list)` grouping of payloads by guild scope, preserving both
first-appearance order of keys and insertion order within a key. -/
def groupPayloads (l : List (Option Int × List (String × JVal))) :
    List (Option Int × List (List (String × JVal))) :=
  l.foldl (fun acc p => add acc p.1 p.2) []
where
  add (acc : List (Option Int × List (List (String × JVal))))
      (k : Option Int) (v : List (String × JVal)) :
      List (Option Int × List (List (String × JVal))) :=
    if acc.any (fun g => g.1 == k) then
      acc.map fun g => if g.1 == k then (g.1, g.2 ++ [v]) else g
    else acc ++ [(k, [v])]

/-- `Bot.sync_commands`: fails when the application ID is falsy, otherwise
builds every registered command's payload cog by cog, groups by guild scope,
pops the global group, and returns the upload payloads together with the
updated registry state. -/
def syncCommands (s : BotState) : Except SyncError (SyncPayloads × BotState) :=
  if s.applicationId = 0 then .error .noApplicationId
  else
    match syncAll s.cogs with
    | .error e => .error (.build e)
    | .ok (pairs, cogs) =>
      let groups := groupPayloads pairs
      let globals := (groups.lookup none).getD []
      let guilds := groups.filterMap fun g =>
        match g.1 with
        | none => none
        | some gid => some (gid, g.2)
      .ok ({ globals := globals, guilds := guilds }, { s with cogs := cogs })
where
  syncAll : List Cog →
      Except BuildError (List (Option Int × List (String × JVal)) × List Cog)
    | [] => .ok ([], [])
    | cog :: cs =>
      match syncCog cog with
      | .error e => .error e
      | .ok (ps, cog2) =>
        match syncAll cs with
        | .error e => .error e
        | .ok (rest, cs2) => .ok (ps ++ rest, cog2 :: cs2)

/-! ### Helper lemmas about built options -/

theorem lookup_append (l₁ l₂ : OptionDict) (k : String) :
    (l₁ ++ l₂).lookup k =
      match l₁.lookup k with
      | some v => some v
      | none => l₂.lookup k := by
  induction l₁ with
  | nil => simp
  | cons hd tl ih =>
    obtain ⟨k2, v2⟩ := hd
    simp only [List.cons_append, List.lookup_cons]
    cases k == k2 <;> simp [ih]

theorem buildOption_ok_shape (cmd : String) (df : String → String) (p : Param)
    (o : OptionDict) (h : buildOption cmd df p = .ok o) :
    ∃ ann typ extra, p.annot = some ann ∧
      command_type_map ann.realType = some typ ∧
      optionExtra ann = .ok extra ∧
      o = optionBase typ p.name (df p.name) p.hasDefault ++ extra := by
  unfold buildOption at h
  split at h
  · exact absurd h (by simp)
  next ann hann =>
    split at h
    · exact absurd h (by simp)
    next typ hmap =>
      cases hextra : optionExtra ann with
      | error e => rw [hextra] at h; exact absurd h (by simp [Except.map])
      | ok extra =>
        rw [hextra] at h
        simp only [Except.map, Except.ok.injEq] at h
        exact ⟨ann, typ, extra, hann, hmap, hextra, h.symm⟩

theorem optionExtra_lookup_required (ann : Ann) (extra : OptionDict)
    (h : optionExtra ann = .ok extra) : extra.lookup "required" = none := by
  cases ann with
  | range mn mx =>
    simp only [optionExtra, Except.ok.injEq] at h
    rw [← h]; rfl
  | union c cs =>
    simp only [optionExtra] at h
    split at h
    · split at h
      · split at h
        · exact absurd h (by simp)
        · simp only [Except.ok.injEq] at h; rw [← h]; rfl
      · simp only [Except.ok.injEq] at h; rw [← h]; rfl
    · exact absurd h (by simp)
  | lit c cs =>
    simp only [optionExtra, Except.ok.injEq] at h
    rw [← h]; rfl
  | ty t =>
    simp only [optionExtra] at h
    split at h
    · split at h
      · exact absurd h (by simp)
      · simp only [Except.ok.injEq] at h; rw [← h]; rfl
    · simp only [Except.ok.injEq] at h; rw [← h]; rfl

theorem optionBase_lookup_required (typ : Int) (name desc : String) (hd : Bool) :
    (optionBase typ name desc hd).lookup "required" =
      if hd then none else some (.jBool true) := by
  cases hd <;> rfl

theorem optionBase_lookup_other (typ : Int) (name desc : String) (hd : Bool)
    (k : String) (h1 : (k == "type") = false) (h2 : (k == "name") = false)
    (h3 : (k == "description") = false) (h4 : (k == "required") = false) :
    (optionBase typ name desc hd).lookup k = none := by
  cases hd <;> simp [optionBase, List.lookup_cons, h1, h2, h3, h4, List.lookup]

/-! ### C4 -/

/-- C4: for an inbound command-invocation payload whose data has no `options`
key, the Argument Resolver returns the empty name-to-value mapping and raises
no error. -/
theorem c4_no_options_empty_arguments (resolved : Option ResolvedPayload) :
    buildArguments { options := none, resolved := resolved } = .ok [] := rfl

/-! ### C9 -/

/-- C9: a built option entry contains the key `required` (with value `True`)
iff the corresponding parameter has no default value; for a parameter with a
default, the option has no `required` key at all rather than
`required=False`. -/
theorem c9_required_key_iff_no_default (cmd : String) (df : String → String)
    (p : Param) (o : OptionDict) (h : buildOption cmd df p = .ok o) :
    (o.lookup "required" = some (.jBool true) ↔ p.hasDefault = false) ∧
    (p.hasDefault = true → o.lookup "required" = none) := by
  obtain ⟨ann, typ, extra, hann, hmap, hextra, rfl⟩ := buildOption_ok_shape cmd df p o h
  have hreq := optionExtra_lookup_required ann extra hextra
  rw [lookup_append, optionBase_lookup_required]
  cases hd : p.hasDefault <;> simp [hreq]

/-- C9 witness: a concrete parameter with a default yields an option without
the `required` key, and a concrete parameter without a default yields one
with `required=True`. -/
theorem c9_required_key_witness :
    (∃ o, buildOption "c" (fun _ => "d")
        { name := "x", annot := some (.ty .pyInt), hasDefault := true } = .ok o ∧
      ((o.lookup "required" = some (.jBool true) ↔ true = false) ∧
        (true = true → o.lookup "required" = none))) := by
  exact ⟨_, rfl, c9_required_key_iff_no_default "c" (fun _ => "d")
    { name := "x", annot := some (.ty .pyInt), hasDefault := true } _ rfl⟩

/-! ### C3 (corrected) -/

/-- C3 counterexample: for a parameter annotated `Range(None, 10)` the built
option does contain the key `min_value`, mapped to JSON null
(`option['min_value'] = ann.min` runs unconditionally in
`_build_command_payload`), contradicting the claim that the option contains
no `min_value` key at all. -/
theorem c3_min_value_null_counterexample :
    (buildOption "number" (fun _ => "No description provided")
        { name := "num", annot := some (.range none 10), hasDefault := false }).map
      (fun o => o.lookup "min_value") = .ok (some JVal.null) := rfl

/-- C3 (amended): a parameter annotated `Range(0, 10)` yields an option with
`min_value=0` and `max_value=10`; a parameter annotated `Range(None, 10)`
yields an option with `max_value=10` whose `min_value` key is present with
value null (the key is emitted, not omitted). -/
theorem c3_range_bounds (cmd : String) (df : String → String) (p : Param) :
    (p.annot = some (.range (some 0) 10) →
      ∃ o, buildOption cmd df p = .ok o ∧
        o.lookup "min_value" = some (.jInt 0) ∧
        o.lookup "max_value" = some (.jInt 10)) ∧
    (p.annot = some (.range none 10) →
      ∃ o, buildOption cmd df p = .ok o ∧
        o.lookup "max_value" = some (.jInt 10) ∧
        o.lookup "min_value" = some JVal.null) := by
  constructor
  · intro hann
    refine ⟨optionBase 4 p.name (df p.name) p.hasDefault ++
      [("max_value", .jInt 10), ("min_value", .jInt 0)], ?_, ?_, ?_⟩
    · simp [buildOption, hann, Ann.realType, command_type_map, optionExtra,
        Except.map, jValOfOptInt]
    · rw [lookup_append, optionBase_lookup_other _ _ _ _ _
        (by decide) (by decide) (by decide) (by decide)]
      rfl
    · rw [lookup_append, optionBase_lookup_other _ _ _ _ _
        (by decide) (by decide) (by decide) (by decide)]
      rfl
  · intro hann
    refine ⟨optionBase 4 p.name (df p.name) p.hasDefault ++
      [("max_value", .jInt 10), ("min_value", JVal.null)], ?_, ?_, ?_⟩
    · simp [buildOption, hann, Ann.realType, command_type_map, optionExtra,
        Except.map, jValOfOptInt]
    · rw [lookup_append, optionBase_lookup_other _ _ _ _ _
        (by decide) (by decide) (by decide) (by decide)]
      rfl
    · rw [lookup_append, optionBase_lookup_other _ _ _ _ _
        (by decide) (by decide) (by decide) (by decide)]
      rfl

/-- C3 witness: the amended claim evaluated at concrete `Range(0, 10)` and
`Range(None, 10)` parameters. -/
theorem c3_range_bounds_witness :
    (∃ o, buildOption "number" (fun _ => "d")
        { name := "a", annot := some (.range (some 0) 10), hasDefault := false } = .ok o ∧
      o.lookup "min_value" = some (.jInt 0) ∧
      o.lookup "max_value" = some (.jInt 10)) ∧
    (∃ o, buildOption "number" (fun _ => "d")
        { name := "b", annot := some (.range none 10), hasDefault := false } = .ok o ∧
      o.lookup "max_value" = some (.jInt 10) ∧
      o.lookup "min_value" = some JVal.null) := by
  exact ⟨(c3_range_bounds "number" (fun _ => "d")
      { name := "a", annot := some (.range (some 0) 10), hasDefault := false }).1 rfl,
    (c3_range_bounds "number" (fun _ => "d")
      { name := "b", annot := some (.range none 10), hasDefault := false }).2 rfl⟩

/-! ### C6 -/

/-- C6: a domain-level `CommandError` raised by the handler is delivered to
the per-cog error hook unchanged; any other exception is wrapped as
`CommandInvokeError` with the original as its cause before being delivered;
in both cases the hook receives an error of `CommandError` shape. -/
theorem hookError_on_error (e : PyExc) :
    hookError (Except.error e : Except PyExc Unit) =
      some (if e.isCommandError then e else .commandInvokeError e) := by
  cases e <;> rfl

theorem c6_handler_error_routing (run : Except PyExc Unit) (e : PyExc)
    (h : run = .error e) :
    (e.isCommandError = true → hookError run = some e) ∧
    (e.isCommandError = false → hookError run = some (.commandInvokeError e)) ∧
    (∀ e2, hookError run = some e2 → e2.isCommandError = true) := by
  subst h
  simp only [hookError_on_error]
  refine ⟨fun hb => by simp [hb], fun hb => by simp [hb], fun e2 h2 => ?_⟩
  cases hb : e.isCommandError
  · simp only [hb, if_neg Bool.false_ne_true, Option.some.injEq] at h2
    subst h2; rfl
  · simp only [hb, if_pos rfl, Option.some.injEq] at h2
    subst h2; exact hb

/-- C6 witness: the routing evaluated for a handler raising a plain
(non-`CommandError`) exception. -/
theorem c6_handler_error_routing_witness :
    ((PyExc.otherExc "boom").isCommandError = true →
      hookError (Except.error (PyExc.otherExc "boom") : Except PyExc Unit) =
        some (.otherExc "boom")) ∧
    ((PyExc.otherExc "boom").isCommandError = false →
      hookError (Except.error (PyExc.otherExc "boom") : Except PyExc Unit) =
        some (.commandInvokeError (.otherExc "boom"))) ∧
    (∀ e2, hookError (Except.error (PyExc.otherExc "boom") : Except PyExc Unit) = some e2 →
      e2.isCommandError = true) :=
  c6_handler_error_routing (.error (.otherExc "boom")) (.otherExc "boom") rfl

/-! ### C2 -/

theorem resolveOne_miss (resolved : List (Int × Entity)) (o : WireOption) (id : Int)
    (htype : o.type = 6 ∨ o.type = 7 ∨ o.type = 8)
    (hid : pyInt o.value = some id)
    (hmiss : resolved.lookup id = none) :
    resolveOne resolved o = .error (.resolvedKeyError id) := by
  simp [resolveOne, htype, hid, hmiss]

theorem resolveOptions_mem_error (resolved : List (Int × Entity))
    (opts : List WireOption) (o : WireOption) (e : ResolveError)
    (hmem : o ∈ opts) (herr : resolveOne resolved o = .error e) :
    ∃ e2, resolveOptions resolved opts = .error e2 := by
  induction opts with
  | nil => cases hmem
  | cons hd tl ih =>
    rcases List.mem_cons.mp hmem with h | h
    · subst h
      exact ⟨e, by simp [resolveOptions, herr]⟩
    · cases h1 : resolveOne resolved hd with
      | error e1 => exact ⟨e1, by simp [resolveOptions, h1]⟩
      | ok v =>
        obtain ⟨e2, h2⟩ := ih h
        exact ⟨e2, by simp [resolveOptions, h1, h2]⟩

/-- C2: for an inbound command-invocation payload containing an option of an
entity-reference wire type (6, 7 or 8) whose value ID has no entry in the
resolved side-table, the Argument Resolver raises an error: the lookup miss
propagates and no partial result is produced. -/
theorem c2_missing_resolved_entity_errors (data : InteractionData)
    (opts : List WireOption) (resolved : List (Int × Entity))
    (o : WireOption) (id : Int)
    (hopts : data.options = some opts)
    (hres : parseResolvedData data.resolved = .ok resolved)
    (hmem : o ∈ opts)
    (htype : o.type = 6 ∨ o.type = 7 ∨ o.type = 8)
    (hid : pyInt o.value = some id)
    (hmiss : resolved.lookup id = none) :
    ∃ e, buildArguments data = .error e := by
  obtain ⟨e2, h2⟩ := resolveOptions_mem_error resolved opts o _ hmem
    (resolveOne_miss resolved o id htype hid hmiss)
  exact ⟨e2, by simp [buildArguments, hopts, hres, h2]⟩

/-- C2 witness: a concrete invocation referencing user ID 123 with an empty
resolved side-table makes the resolver fail. -/
theorem c2_missing_resolved_entity_witness :
    ∃ e, buildArguments
      { options := some [{ name := "target", type := 6, value := .jInt 123 }],
        resolved := none } = .error e :=
  c2_missing_resolved_entity_errors
    { options := some [{ name := "target", type := 6, value := .jInt 123 }],
      resolved := none }
    [{ name := "target", type := 6, value := .jInt 123 }] []
    { name := "target", type := 6, value := .jInt 123 } 123
    rfl rfl (List.mem_singleton.mpr rfl) (Or.inl rfl) rfl rfl

/-! ### C7 -/

theorem lookup_filter_none {β : Type} (l : List (String × β)) (cid : String)
    (q : String × β → Bool) (h : l.lookup cid = none) :
    (l.filter q).lookup cid = none := by
  induction l with
  | nil => rfl
  | cons hd tl ih =>
    obtain ⟨k, v⟩ := hd
    rw [List.lookup_cons] at h
    cases hk : cid == k
    · simp only [hk] at h
      cases hq : q (k, v)
      · rw [List.filter_cons, if_neg (by simp [hq])]
        exact ih h
      · rw [List.filter_cons, if_pos (by simp [hq]), List.lookup_cons]
        simp only [hk]
        exact ih h
    · simp [hk] at h

theorem lookup_erase {β : Type} (l : List (String × β)) (cid : String) :
    (l.filter fun p => p.1 != cid).lookup cid = none := by
  induction l with
  | nil => rfl
  | cons hd tl ih =>
    obtain ⟨k, v⟩ := hd
    cases hk : (k != cid)
    · rw [List.filter_cons, if_neg (by simp [hk])]
      exact ih
    · rw [List.filter_cons, if_pos (by simp [hk]), List.lookup_cons]
      have hne : k ≠ cid := by simpa using hk
      have hq : (cid == k) = false := beq_eq_false_iff_ne.mpr (Ne.symm hne)
      simp only [hq]
      exact ih

theorem handleModalSubmit_lookup_none (s : ModalState) (cid : String) :
    (handleModalSubmit s cid).pending.lookup cid = none := by
  cases h : s.pending.lookup cid
  · simp [handleModalSubmit, h]
  · simp [handleModalSubmit, h, lookup_erase]

theorem handleModalSubmit_preserves_absent (s : ModalState) (cid ev : String)
    (h : s.pending.lookup cid = none) :
    (handleModalSubmit s ev).pending.lookup cid = none := by
  cases hv : s.pending.lookup ev
  · simpa [handleModalSubmit, hv] using h
  · simp only [handleModalSubmit, hv]
    exact lookup_filter_none _ _ _ h

theorem handleModalSubmit_absent_noop (s : ModalState) (cid : String)
    (h : s.pending.lookup cid = none) : handleModalSubmit s cid = s := by
  unfold handleModalSubmit
  rw [h]

theorem runSubmissions_preserves_absent (events : List String) (s : ModalState)
    (cid : String) (h : s.pending.lookup cid = none) :
    (runSubmissions s events).pending.lookup cid = none := by
  induction events generalizing s with
  | nil => exact h
  | cons ev tl ih =>
    exact ih (handleModalSubmit s ev) (handleModalSubmit_preserves_absent s cid ev h)

/-- C7: the first modal-submission event matching a pending custom ID removes
the entry from the pending table and fulfills that modal's slot; after any
further sequence of submission events the ID stays absent, and a later
submission carrying the same ID changes nothing (a strict no-op), so the slot
is fulfilled by at most one submission event. -/
theorem c7_modal_single_fulfillment (s : ModalState) (cid : String) (m : Nat)
    (h : s.pending.lookup cid = some m) :
    ((handleModalSubmit s cid).pending.lookup cid = none) ∧
    ((handleModalSubmit s cid).fulfilled = m :: s.fulfilled) ∧
    (∀ events : List String,
      (runSubmissions (handleModalSubmit s cid) events).pending.lookup cid = none ∧
      handleModalSubmit (runSubmissions (handleModalSubmit s cid) events) cid =
        runSubmissions (handleModalSubmit s cid) events) := by
  refine ⟨handleModalSubmit_lookup_none s cid, ?_, fun events => ?_⟩
  · simp [handleModalSubmit, h]
  · have habs := runSubmissions_preserves_absent events (handleModalSubmit s cid) cid
      (handleModalSubmit_lookup_none s cid)
    exact ⟨habs, handleModalSubmit_absent_noop _ cid habs⟩

/-- C7 witness: a modal with custom ID "abc" pending; its submission fulfills
it once, and the same ID resubmitted (amid other traffic) is a no-op. -/
theorem c7_modal_single_fulfillment_witness :
    ((handleModalSubmit { pending := [("abc", 0)], fulfilled := [] } "abc").pending.lookup
        "abc" = none) ∧
    ((handleModalSubmit { pending := [("abc", 0)], fulfilled := [] } "abc").fulfilled =
        0 :: []) ∧
    ((runSubmissions (handleModalSubmit { pending := [("abc", 0)], fulfilled := [] } "abc")
        ["abc", "xyz"]).pending.lookup "abc" = none) ∧
    (handleModalSubmit (runSubmissions
        (handleModalSubmit { pending := [("abc", 0)], fulfilled := [] } "abc")
        ["abc", "xyz"]) "abc" =
      runSubmissions (handleModalSubmit { pending := [("abc", 0)], fulfilled := [] } "abc")
        ["abc", "xyz"]) := by
  have T := c7_modal_single_fulfillment
    { pending := [("abc", 0)], fulfilled := [] } "abc" 0 rfl
  exact ⟨T.1, T.2.1, (T.2.2 ["abc", "xyz"]).1, (T.2.2 ["abc", "xyz"]).2⟩

/-! ### C1 -/

theorem insertByKey_key_false (x : OptionDict) (l : List OptionDict)
    (hx : sortKey x = false) : insertByKey x l = x :: l := by
  cases l with
  | nil => rfl
  | cons y ys => simp [insertByKey, hx]

theorem insertByKey_key_true (x : OptionDict) (A B : List OptionDict)
    (hx : sortKey x = true) (hA : ∀ a ∈ A, sortKey a = false)
    (hB : ∀ b ∈ B, sortKey b = true) :
    insertByKey x (A ++ B) = A ++ x :: B := by
  induction A with
  | nil =>
    cases B with
    | nil => rfl
    | cons b bs =>
      have hb := hB b (List.mem_cons_self b bs)
      simp [insertByKey, hb]
  | cons a as ih =>
    have ha := hA a (List.mem_cons_self a as)
    have ih2 := ih fun a2 h2 => hA a2 (List.mem_cons_of_mem a h2)
    simp [insertByKey, ha, hx, ih2]

theorem sortOptions_eq_partition (l : List OptionDict) :
    sortOptions l = l.filter optRequired ++ l.filter (fun o => !optRequired o) := by
  induction l with
  | nil => rfl
  | cons x xs ih =>
    have hreq : ∀ a ∈ xs.filter optRequired, sortKey a = false := by
      intro a ha
      have h2 := (List.mem_filter.mp ha).2
      simp [sortKey, h2]
    have hopt : ∀ b ∈ xs.filter (fun o => !optRequired o), sortKey b = true := by
      intro b hb
      have h2 := (List.mem_filter.mp hb).2
      have h3 : optRequired b = false := by simpa using h2
      simp [sortKey, h3]
    cases hx : optRequired x
    · have hx2 : sortKey x = true := by simp [sortKey, hx]
      simp only [sortOptions, ih]
      rw [insertByKey_key_true x _ _ hx2 hreq hopt]
      simp [List.filter_cons, hx]
    · have hx2 : sortKey x = false := by simp [sortKey, hx]
      simp only [sortOptions, ih]
      rw [insertByKey_key_false x _ hx2]
      simp [List.filter_cons, hx]

theorem buildOptionsList_forall2 (cmd : String) (df : String → String) :
    ∀ (ps : List Param) (os : List OptionDict),
      buildOptionsList cmd df ps = .ok os →
      List.Forall₂ (fun p o => buildOption cmd df p = .ok o) ps os := by
  intro ps
  induction ps with
  | nil =>
    intro os h
    simp only [buildOptionsList, Except.ok.injEq] at h
    rw [← h]
    exact List.Forall₂.nil
  | cons p ptl ih =>
    intro os h
    simp only [buildOptionsList] at h
    cases h1 : buildOption cmd df p with
    | error e => simp [h1] at h
    | ok o =>
      simp only [h1] at h
      cases h2 : buildOptionsList cmd df ptl with
      | error e => simp [h2] at h
      | ok os2 =>
        simp only [h2, Except.ok.injEq] at h
        rw [← h]
        exact List.Forall₂.cons h1 (ih os2 h2)

theorem optRequired_of_ok (cmd : String) (df : String → String) (p : Param)
    (o : OptionDict) (h : buildOption cmd df p = .ok o) :
    optRequired o = !p.hasDefault := by
  obtain ⟨ann, typ, extra, hann, hmap, hextra, rfl⟩ := buildOption_ok_shape cmd df p o h
  have hreq := optionExtra_lookup_required ann extra hextra
  unfold optRequired
  rw [lookup_append, optionBase_lookup_required]
  cases hd : p.hasDefault <;> simp [hreq, pyTruthy, JVal.truthy]

/-- C1: for a handler signature whose parameters all build successfully, the
Option Schema Builder emits exactly one option entry per declared parameter
(in declaration order, with the `required` flag reflecting the absence of a
default), and the emitted (sorted) options list is exactly the required
entries followed by the optional entries, each group keeping declaration
order. -/
theorem c1_one_option_per_param_required_first (cmd : String) (df : String → String)
    (params : List Param) (opts : List OptionDict)
    (h : buildOptionsList cmd df params = .ok opts) :
    opts.length = params.length ∧
    List.Forall₂ (fun (p : Param) (o : OptionDict) => optRequired o = !p.hasDefault)
      params opts ∧
    sortOptions opts = opts.filter optRequired ++ opts.filter (fun o => !optRequired o) := by
  have hf := buildOptionsList_forall2 cmd df params opts h
  exact ⟨hf.length_eq.symm,
    hf.imp fun p o hpo => optRequired_of_ok cmd df p o hpo,
    sortOptions_eq_partition opts⟩

/-- C1 witness: a three-parameter signature (required, optional, required)
builds one option per parameter with required entries sorted first. -/
theorem c1_one_option_per_param_witness :
    ∃ opts, buildOptionsList "cmd" (fun _ => "d")
        [{ name := "a", annot := some (.ty .pyInt), hasDefault := false },
         { name := "b", annot := some (.ty .pyStr), hasDefault := true },
         { name := "c", annot := some (.ty .user), hasDefault := false }] = .ok opts ∧
      (opts.length =
        ([{ name := "a", annot := some (.ty .pyInt), hasDefault := false },
          { name := "b", annot := some (.ty .pyStr), hasDefault := true },
          { name := "c", annot := some (.ty .user), hasDefault := false }] :
            List Param).length ∧
       List.Forall₂ (fun (p : Param) (o : OptionDict) => optRequired o = !p.hasDefault)
         [{ name := "a", annot := some (.ty .pyInt), hasDefault := false },
          { name := "b", annot := some (.ty .pyStr), hasDefault := true },
          { name := "c", annot := some (.ty .user), hasDefault := false }] opts ∧
       sortOptions opts =
         opts.filter optRequired ++ opts.filter (fun o => !optRequired o)) :=
  ⟨_, rfl, c1_one_option_per_param_required_first "cmd" (fun _ => "d") _ _ rfl⟩

/-! ### C10 -/

theorem channelCodes_length (ts : List PyType) (codes : List Int)
    (h : channelCodes ts = some codes) : codes.length = ts.length := by
  induction ts generalizing codes with
  | nil =>
    simp only [channelCodes, Option.some.injEq] at h
    simp [← h]
  | cons t ts2 ih =>
    simp only [channelCodes] at h
    cases h1 : channel_filter t with
    | none => simp [h1] at h
    | some c =>
      cases h2 : channelCodes ts2 with
      | none => simp [h1, h2] at h
      | some cs =>
        simp only [h1, h2, Option.some.injEq] at h
        rw [← h]
        simp [ih cs h2]

theorem optionExtra_union (c : PyType) (cs : List PyType) (extra : OptionDict)
    (h : optionExtra (.union c cs) = .ok extra) :
    (c :: cs).all isGuildChannel = true ∧
    (¬(c :: cs).length = 3 → ∃ codes, channelCodes (c :: cs) = some codes ∧
        extra = [("channel_types", .jArr (codes.map JVal.jInt))]) ∧
    ((c :: cs).length = 3 → extra = []) := by
  simp only [optionExtra] at h
  split at h
  · split at h
    next hlen =>
      cases hcodes : channelCodes (c :: cs) with
      | none => simp [hcodes] at h
      | some codes =>
        simp only [hcodes, Except.ok.injEq] at h
        exact ⟨by assumption, fun _ => ⟨codes, rfl, h.symm⟩, fun h3 => absurd h3 hlen⟩
    next hlen =>
      simp only [Except.ok.injEq] at h
      exact ⟨by assumption, fun hne => absurd (not_not.mp hlen) hne, fun _ => h.symm⟩
  · exact absurd h (by simp)

/-- C10: for a union of guild-channel types, the built option contains a
`channel_types` filter listing one code per union member exactly when the
union has a number of members different from three; a three-member union
yields an option with no `channel_types` key. -/
theorem c10_channel_types_filter (cmd : String) (df : String → String) (p : Param)
    (o : OptionDict) (c : PyType) (cs : List PyType)
    (hann : p.annot = some (.union c cs))
    (h : buildOption cmd df p = .ok o) :
    (¬(c :: cs).length = 3 → ∃ codes, channelCodes (c :: cs) = some codes ∧
        codes.length = (c :: cs).length ∧
        o.lookup "channel_types" = some (.jArr (codes.map JVal.jInt))) ∧
    ((c :: cs).length = 3 → o.lookup "channel_types" = none) := by
  obtain ⟨ann, typ, extra, hann2, hmap, hextra, rfl⟩ := buildOption_ok_shape cmd df p o h
  rw [hann] at hann2
  injection hann2 with hann2
  subst hann2
  obtain ⟨hall, hne3, heq3⟩ := optionExtra_union c cs extra hextra
  constructor
  · intro hlen
    obtain ⟨codes, hcodes, hextra2⟩ := hne3 hlen
    subst hextra2
    refine ⟨codes, hcodes, channelCodes_length _ _ hcodes, ?_⟩
    rw [lookup_append, optionBase_lookup_other _ _ _ _ _
      (by decide) (by decide) (by decide) (by decide)]
    rfl
  · intro hlen
    rw [heq3 hlen, List.append_nil]
    exact optionBase_lookup_other _ _ _ _ _
      (by decide) (by decide) (by decide) (by decide)

/-- C10 witness: a two-member channel union gets a `channel_types` filter with
one code per member. -/
theorem c10_channel_types_witness :
    ∃ o, buildOption "cmd" (fun _ => "d")
        { name := "ch", annot := some (.union .textChannel [.voiceChannel]),
          hasDefault := false } = .ok o ∧
      ((¬([PyType.textChannel, PyType.voiceChannel] : List PyType).length = 3 →
        ∃ codes, channelCodes [PyType.textChannel, PyType.voiceChannel] = some codes ∧
          codes.length = ([PyType.textChannel, PyType.voiceChannel] : List PyType).length ∧
          o.lookup "channel_types" = some (.jArr (codes.map JVal.jInt))) ∧
       (([PyType.textChannel, PyType.voiceChannel] : List PyType).length = 3 →
        o.lookup "channel_types" = none)) :=
  ⟨_, rfl, c10_channel_types_filter "cmd" (fun _ => "d")
    { name := "ch", annot := some (.union .textChannel [.voiceChannel]),
      hasDefault := false } _ .textChannel [.voiceChannel] rfl rfl⟩

/-! ### C5 -/

/-- The build-failure condition exactly as the specification states it: a
parameter lacks a type annotation, or the resolved parameter type is not a
key of the supported type map, or a union-typed parameter contains a member
that is not a guild-channel type. -/
def paramFails (p : Param) : Bool :=
  match p.annot with
  | none => true
  | some a =>
    (command_type_map a.realType).isNone ||
      (match a with
       | .union c cs => (c :: cs).any fun t => !isGuildChannel t
       | _ => false)

theorem isGuildChannel_filter (t : PyType) (h : isGuildChannel t = true) :
    ∃ code, channel_filter t = some code := by
  cases t <;> first
    | exact ⟨_, rfl⟩
    | simp [isGuildChannel] at h

theorem channelCodes_all_guild (ts : List PyType)
    (h : ∀ t ∈ ts, isGuildChannel t = true) :
    ∃ codes, channelCodes ts = some codes := by
  induction ts with
  | nil => exact ⟨[], rfl⟩
  | cons t ts2 ih =>
    obtain ⟨code, hc⟩ := isGuildChannel_filter t (h t (List.mem_cons_self t ts2))
    obtain ⟨codes, hcs⟩ := ih fun t2 h2 => h t2 (List.mem_cons_of_mem t h2)
    exact ⟨code :: codes, by simp [channelCodes, hc, hcs]⟩

theorem except_map_ok_iff {ε α β : Type} (f : α → β) (r : Except ε α) :
    (∃ b, r.map f = .ok b) ↔ ∃ a, r = .ok a := by
  cases r <;> simp [Except.map]

theorem optionExtra_ok_iff (a : Ann) :
    (∃ extra, optionExtra a = .ok extra) ↔
      (match a with
       | .union c cs => (c :: cs).all isGuildChannel = true
       | _ => True) := by
  cases a with
  | range mn mx => simp [optionExtra]
  | lit c cs => simp [optionExtra]
  | ty t =>
    simp only [optionExtra]
    cases hg : isGuildChannel t
    · simp
    · obtain ⟨code, hc⟩ := isGuildChannel_filter t hg
      simp [hc]
  | union c cs =>
    simp only [optionExtra]
    cases hall : (c :: cs).all isGuildChannel
    · simp
    · by_cases hlen : (c :: cs).length = 3
      · simp [hlen]
      · obtain ⟨codes, hcodes⟩ := channelCodes_all_guild (c :: cs)
          fun t ht => List.all_eq_true.mp hall t ht
        have hlen2 : ¬(cs.length = 2) := fun h2 => hlen (by simp [h2])
        simp [hall, hlen, hlen2, hcodes]

theorem buildOption_ok_iff (cmd : String) (df : String → String) (p : Param) :
    (∃ o, buildOption cmd df p = .ok o) ↔ paramFails p = false := by
  cases hann : p.annot with
  | none => simp [buildOption, hann, paramFails]
  | some a =>
    simp only [buildOption, hann, paramFails]
    cases hmap : command_type_map a.realType with
    | none => simp [hmap]
    | some typ =>
      rw [except_map_ok_iff, optionExtra_ok_iff]
      cases a with
      | range mn mx => simp
      | lit c cs => simp
      | ty t => simp
      | union c cs =>
        simp [List.all_eq_true, List.any_eq_true]

theorem buildOptionsList_ok_iff (cmd : String) (df : String → String)
    (ps : List Param) :
    (∃ os, buildOptionsList cmd df ps = .ok os) ↔ ∀ p ∈ ps, paramFails p = false := by
  induction ps with
  | nil => simp [buildOptionsList]
  | cons p ptl ih =>
    simp only [buildOptionsList]
    constructor
    · rintro ⟨os, h⟩
      cases h1 : buildOption cmd df p with
      | error e => simp [h1] at h
      | ok o =>
        simp only [h1] at h
        cases h2 : buildOptionsList cmd df ptl with
        | error e => simp [h2] at h
        | ok os2 =>
          intro q hq
          rcases List.mem_cons.mp hq with rfl | hq2
          · exact (buildOption_ok_iff cmd df q).mp ⟨o, h1⟩
          · exact ih.mp ⟨os2, h2⟩ q hq2
    · intro hall
      obtain ⟨o, h1⟩ := (buildOption_ok_iff cmd df p).mpr
        (hall p (List.mem_cons_self p ptl))
      obtain ⟨os2, h2⟩ := ih.mpr fun q hq => hall q (List.mem_cons_of_mem p hq)
      exact ⟨o :: os2, by simp [h1, h2]⟩

theorem checkDescriptions_ok_of (paramDesc : List (String × String))
    (params : List Param)
    (hdesc : ∀ kv ∈ paramDesc, params.any (fun p => p.name == kv.1) = true) :
    checkDescriptions paramDesc params = .ok () := by
  have h0 : paramDesc.find? (fun kv => !params.any fun p => p.name == kv.1) = none := by
    apply List.find?_eq_none.mpr
    intro kv hkv
    simp [hdesc kv hkv]
  simp [checkDescriptions, h0]

/-- C5: building a slash command's upload payload raises an error exactly
when some declared parameter lacks a type annotation, resolves to a type that
is not a key of the supported type map, or is a union containing a member
that is not a guild-channel type; when no parameter satisfies any of these
conditions (and the `@describe` table names only declared parameters, the
separate well-formedness `_build_descriptions` enforces) the build succeeds. -/
theorem buildCommandPayload_eq (c : SlashCommand)
    (h0 : checkDescriptions c.paramDesc c.params = .ok ()) :
    buildCommandPayload c =
      if c.params.isEmpty then
        .ok [("name", .jStr c.name), ("description", .jStr c.description),
             ("type", .jInt 1)]
      else
        match buildOptionsList c.name (descFor c.paramDesc) c.params with
        | .error e => .error e
        | .ok options =>
          .ok ([("name", .jStr c.name), ("description", .jStr c.description),
                ("type", .jInt 1)] ++
            [("options", .jArr ((sortOptions options).map JVal.jObj))]) := by
  unfold buildCommandPayload
  rw [h0]

theorem c5_build_error_iff (c : SlashCommand)
    (hdesc : ∀ kv ∈ c.paramDesc, c.params.any (fun p => p.name == kv.1) = true) :
    (∃ pl, buildCommandPayload c = .ok pl) ↔ ∀ p ∈ c.params, paramFails p = false := by
  have h0 := checkDescriptions_ok_of c.paramDesc c.params hdesc
  rw [buildCommandPayload_eq c h0]
  cases hemp : c.params.isEmpty
  · rw [if_neg (by simp [hemp])]
    constructor
    · rintro ⟨pl, h⟩
      cases h2 : buildOptionsList c.name (descFor c.paramDesc) c.params with
      | error e => simp [h2] at h
      | ok os =>
        exact (buildOptionsList_ok_iff c.name (descFor c.paramDesc) c.params).mp ⟨os, h2⟩
    · intro hall
      obtain ⟨os, h2⟩ :=
        (buildOptionsList_ok_iff c.name (descFor c.paramDesc) c.params).mpr hall
      exact ⟨[("name", .jStr c.name), ("description", .jStr c.description),
        ("type", .jInt 1), ("options", .jArr ((sortOptions os).map JVal.jObj))],
        by rw [h2]; rfl⟩
  · rw [if_pos (by simp [hemp])]
    have hnil := List.isEmpty_iff.mp hemp
    simp [hnil]

/-- C5 witness: a one-parameter command with a valid `@describe` table
builds successfully, matching the absence of all three failure conditions. -/
theorem c5_build_error_iff_witness :
    (∃ pl, buildCommandPayload
      { name := "pog", description := "No description provided", guildId := none,
        paramDesc := [("x", "the x")],
        params := [{ name := "x", annot := some (.ty .pyInt),
                     hasDefault := false }] } = .ok pl) ↔
    ∀ p ∈ [({ name := "x", annot := some (.ty .pyInt),
              hasDefault := false } : Param)], paramFails p = false :=
  c5_build_error_iff
    { name := "pog", description := "No description provided", guildId := none,
      paramDesc := [("x", "the x")],
      params := [{ name := "x", annot := some (.ty .pyInt),
                   hasDefault := false }] }
    (by decide)

/-! ### C8 -/

theorem syncCog_ok_parts (cog : Cog) (ps : List (Option Int × List (String × JVal)))
    (cog2 : Cog) (h : syncCog cog = .ok (ps, cog2)) :
    cog2.commands = cog.commands ∧ syncCog.collect cog.commands = .ok ps := by
  unfold syncCog at h
  cases h1 : syncCog.collect cog.commands with
  | error e => simp [h1] at h
  | ok ps2 =>
    simp only [h1, Except.ok.injEq, Prod.mk.injEq] at h
    obtain ⟨hps, hcog⟩ := h
    subst hps
    subst hcog
    exact ⟨rfl, rfl⟩

theorem syncCog_again (cog : Cog) (ps : List (Option Int × List (String × JVal)))
    (cog2 : Cog) (h : syncCog cog = .ok (ps, cog2)) :
    ∃ cog3, syncCog cog2 = .ok (ps, cog3) := by
  obtain ⟨hcmd, hcol⟩ := syncCog_ok_parts cog ps cog2 h
  refine ⟨{ cog2 with table := cog2.commands.foldl tableInsert cog2.table }, ?_⟩
  unfold syncCog
  rw [hcmd, hcol]

theorem syncAll_again (cogs : List Cog)
    (pairs : List (Option Int × List (String × JVal))) (cogs2 : List Cog)
    (h : syncCommands.syncAll cogs = .ok (pairs, cogs2)) :
    ∃ cogs3, syncCommands.syncAll cogs2 = .ok (pairs, cogs3) := by
  induction cogs generalizing pairs cogs2 with
  | nil =>
    simp only [syncCommands.syncAll, Except.ok.injEq] at h
    cases h
    exact ⟨[], rfl⟩
  | cons cog cs ih =>
    simp only [syncCommands.syncAll] at h
    cases h1 : syncCog cog with
    | error e => simp [h1] at h
    | ok pc =>
      obtain ⟨ps, cog2⟩ := pc
      simp only [h1] at h
      cases h2 : syncCommands.syncAll cs with
      | error e => simp [h2] at h
      | ok rc =>
        obtain ⟨rest, cs2⟩ := rc
        simp only [h2, Except.ok.injEq] at h
        cases h
        obtain ⟨cog3, h3⟩ := syncCog_again cog ps cog2 h1
        obtain ⟨cs3, h4⟩ := ih rest cs2 h2
        exact ⟨cog3 :: cs3, by simp [syncCommands.syncAll, h3, h4]⟩

/-- C8: running the command sync twice in succession over an unchanged set of
registered commands produces identical upload payloads on both runs, for the
global scope and for each guild scope. -/
theorem c8_sync_idempotent (s : BotState) (p1 p2 : SyncPayloads) (s1 s2 : BotState)
    (h1 : syncCommands s = .ok (p1, s1)) (h2 : syncCommands s1 = .ok (p2, s2)) :
    p2 = p1 := by
  unfold syncCommands at h1 h2
  by_cases happ : s.applicationId = 0
  · rw [if_pos happ] at h1
    cases h1
  · rw [if_neg happ] at h1
    cases ha : syncCommands.syncAll s.cogs with
    | error e => simp [ha] at h1
    | ok pc =>
      obtain ⟨pairs, cogs2⟩ := pc
      simp only [ha, Except.ok.injEq] at h1
      cases h1
      rw [if_neg happ] at h2
      obtain ⟨cogs3, h5⟩ := syncAll_again s.cogs pairs cogs2 ha
      simp only [h5, Except.ok.injEq] at h2
      cases h2
      rfl

/-- C8 witness: a concrete bot state with one registered parameterless global
command syncs twice with equal payload outputs. -/
theorem c8_sync_idempotent_witness :
    ∃ p1 s1 p2 s2,
      syncCommands
        { applicationId := 1,
          cogs := [{ commands := [{ name := "pog",
                                    description := "No description provided",
                                    guildId := none, paramDesc := [],
                                    params := [] }],
                     table := [] }] } = .ok (p1, s1) ∧
      syncCommands s1 = .ok (p2, s2) ∧ p2 = p1 := by
  refine ⟨_, _, _, _, rfl, rfl, ?_⟩
  exact c8_sync_idempotent
    { applicationId := 1,
      cogs := [{ commands := [{ name := "pog",
                                description := "No description provided",
                                guildId := none, paramDesc := [],
                                params := [] }],
                 table := [] }] } _ _ _ _ rfl rfl

end SlashUtil
